import Mathlib

/-
Verification of the EICrecon BTOF digitization engine and IrtGeo radiator
helpers against their specification.

The repository provides BTOFHitDigi.h (class declaration, fixed constants and
the fLandau pulse-shape lambda) and IrtGeo.cc.  The bodies of
BTOFHitDigi::init and BTOFHitDigi::execute, the BarrelTOFNeighborFinder and
the configuration struct live in translation units that are not part of the
provided sources; where a claim depends on them, the corresponding definition
is modelled from the specification and marked as such in its doc comment.
-/

set_option maxHeartbeats 1000000

namespace EICrecon

/-- Fixed ADC bit width, BTOFHitDigi.h line 71: `const int adc_bit = 8`. -/
def adc_bit : ℕ := 8

/-- Fixed TDC bit width, BTOFHitDigi.h line 72: `const int tdc_bit = 10`. -/
def tdc_bit : ℕ := 10

/-- Fixed reference period, BTOFHitDigi.h line 69: `const int time_period = 25`. -/
def time_period : ℤ := 25

/-- Number of representable ADC codes, 2 ^ adc_bit = 256. -/
def adc_range : ℤ := 2 ^ adc_bit

/-- Number of representable TDC codes, 2 ^ tdc_bit = 1024. -/
def tdc_range : ℤ := 2 ^ tdc_bit

/-- Saturating clip of an integer code into [0, range - 1]. -/
def clampCode (range v : ℤ) : ℤ := max 0 (min v (range - 1))

/-- Modelled from the spec: the body of BTOFHitDigi::execute is not under the
provided sources.  ADC path of the Digitizer: add the pedestal offset,
linearly scale the aggregated amplitude over [0, dyRangeADC] to an
adc_bit-wide code, clip below to 0 and above to 2 ^ adc_bit - 1
(saturation, never wraparound). -/
def digitizeADC {α : Type} [LinearOrderedField α] [FloorRing α]
    (amp ped dy : α) : ℤ :=
  clampCode adc_range ⌊ped + amp * (adc_range : α) / dy⌋

/-- Modelled from the spec: the TDC granularity spans the fixed reference
period with 2 ^ tdc_bit steps. -/
def stepTDC {α : Type} [LinearOrderedField α] : α :=
  (time_period : α) / (tdc_range : α)

/-- Modelled from the spec: TDC path of the Digitizer — quantize the signal
time at granularity stepTDC within the reference period, clipping values
outside the representable range to the boundary code. -/
def digitizeTDC {α : Type} [LinearOrderedField α] [FloorRing α] (t : α) : ℤ :=
  clampCode tdc_range ⌊t / stepTDC⌋

theorem adc_range_eq : adc_range = 256 := by norm_num [adc_range, adc_bit]

theorem tdc_range_eq : tdc_range = 1024 := by norm_num [tdc_range, tdc_bit]

theorem clampCode_nonneg (range v : ℤ) : 0 ≤ clampCode range v := by
  unfold clampCode; omega

theorem clampCode_le (range v : ℤ) (h : 0 < range) :
    clampCode range v ≤ range - 1 := by
  unfold clampCode; omega

theorem clampCode_mono (range v w : ℤ) (h : v ≤ w) :
    clampCode range v ≤ clampCode range w := by
  unfold clampCode; omega

/-- C1: for every input amplitude the ADC code lies in [0, 2^adc_bit - 1]
(adc_bit = 8); scaled values at or below 0 clip to 0, values at or above the
maximum code clip to 2^adc_bit - 1, and an extreme energy of 10^9 energy
units saturates to the maximum code rather than overflowing or wrapping. -/
theorem adc_code_in_range_and_saturates :
    (∀ amp ped dy : ℚ,
      0 ≤ digitizeADC amp ped dy ∧ digitizeADC amp ped dy ≤ 2 ^ adc_bit - 1)
    ∧ (∀ amp ped dy : ℚ,
      ⌊ped + amp * (adc_range : ℚ) / dy⌋ ≤ 0 → digitizeADC amp ped dy = 0)
    ∧ (∀ amp ped dy : ℚ,
      2 ^ adc_bit - 1 ≤ ⌊ped + amp * (adc_range : ℚ) / dy⌋ →
        digitizeADC amp ped dy = 2 ^ adc_bit - 1)
    ∧ digitizeADC ((10 : ℚ) ^ 9) 0 100 = 2 ^ adc_bit - 1 := by
  refine ⟨fun amp ped dy => ⟨clampCode_nonneg _ _, ?_⟩, fun amp ped dy h => ?_,
    fun amp ped dy h => ?_, ?_⟩
  · exact clampCode_le _ _ (by rw [adc_range_eq]; norm_num)
  · unfold digitizeADC clampCode
    rw [adc_range_eq] at h ⊢
    omega
  · have hmax : (2 : ℤ) ^ adc_bit - 1 = 255 := by norm_num [adc_bit]
    rw [hmax] at h ⊢
    unfold digitizeADC clampCode
    rw [adc_range_eq] at h ⊢
    omega
  · unfold digitizeADC clampCode
    rw [adc_range_eq]
    norm_num [adc_bit, min_def, max_def]

/-- C1 witness: the bounds and the clipping branches at concrete inputs. -/
theorem adc_code_in_range_and_saturates_witness :
    (0 ≤ digitizeADC (7 : ℚ) 0 100 ∧ digitizeADC (7 : ℚ) 0 100 ≤ 2 ^ adc_bit - 1)
    ∧ digitizeADC (-1 : ℚ) 0 1 = 0
    ∧ digitizeADC (2 : ℚ) 0 1 = 2 ^ adc_bit - 1 :=
  ⟨adc_code_in_range_and_saturates.1 7 0 100,
   adc_code_in_range_and_saturates.2.1 (-1) 0 1
     (by rw [adc_range_eq]; norm_num),
   adc_code_in_range_and_saturates.2.2.1 2 0 1
     (by rw [adc_range_eq]; norm_num [adc_bit])⟩

/-- C2: for every smeared time the TDC code lies in [0, 2^tdc_bit - 1]
(tdc_bit = 10), and a time at or beyond the reference period boundary
(time_period = 25) is clipped to the boundary code, not wrapped. -/
theorem tdc_code_in_range_and_clips :
    (∀ t : ℚ, 0 ≤ digitizeTDC t ∧ digitizeTDC t ≤ 2 ^ tdc_bit - 1)
    ∧ (∀ t : ℚ, (time_period : ℚ) ≤ t → digitizeTDC t = 2 ^ tdc_bit - 1) := by
  constructor
  · exact fun t => ⟨clampCode_nonneg _ _, clampCode_le _ _ (by decide)⟩
  · intro t ht
    have h25 : (25 : ℚ) ≤ t := by
      norm_num [time_period] at ht; exact ht
    have hstep : (stepTDC : ℚ) = 25 / 1024 := by
      norm_num [stepTDC, time_period, tdc_range, tdc_bit]
    have hdiv : (1024 : ℚ) ≤ t / stepTDC := by
      rw [hstep, le_div_iff₀ (by norm_num)]
      linarith
    have hfloor : (1024 : ℤ) ≤ ⌊t / (stepTDC : ℚ)⌋ := by
      rw [Int.le_floor]; exact_mod_cast hdiv
    have hmax : (2 : ℤ) ^ tdc_bit - 1 = 1023 := by norm_num [tdc_bit]
    unfold digitizeTDC clampCode
    rw [hmax, tdc_range_eq]
    omega

/-- C2 witness: a time beyond the period boundary yields the maximum code. -/
theorem tdc_code_in_range_and_clips_witness :
    ((time_period : ℚ) ≤ 30) ∧ digitizeTDC (30 : ℚ) = 2 ^ tdc_bit - 1 :=
  ⟨by norm_num [time_period], tdc_code_in_range_and_clips.2 30 (by norm_num [time_period])⟩

/-- Modelled from the spec: a draw from a normal distribution with the given
mean and standard deviation is the mean plus the standard deviation times a
unit-normal variate taken from the shared pseudo-random stream. -/
noncomputable def normalSample (mean sigma draw : ℝ) : ℝ := mean + sigma * draw

/-- Modelled from the spec: relative energy resolution a/sqrt(E) + b + c/E
(full mode), from the resolution formula of EnergyTimeSmearing. -/
noncomputable def eRes (a b c e : ℝ) : ℝ := a / Real.sqrt e + b + c / e

/-- Modelled from the spec: relative energy resolution a/sqrt(E) + b
(simpler configured mode). -/
noncomputable def eResSimple (a b e : ℝ) : ℝ := a / Real.sqrt e + b

/-- Modelled from the spec: energy smearing draws from a normal distribution
centered at the true energy whose sigma is the relative resolution times the
true energy. -/
noncomputable def smearEnergy (a b c e draw : ℝ) : ℝ := normalSample e (eRes a b c e * e) draw

/-- Modelled from the spec: energy smearing in the simpler configured mode. -/
noncomputable def smearEnergySimple (a b e draw : ℝ) : ℝ :=
  normalSample e (eResSimple a b e * e) draw

/-- C3: for every true energy e > 0, the smeared energy is a normal draw with
mean e and absolute standard deviation (a/sqrt(e) + b + c/e) * e — in the
simpler mode (a/sqrt(e) + b) * e — i.e. the sigma handed to the normal
sampler equals the relative resolution times e. -/
theorem smear_energy_sigma (a b c e draw : ℝ) (h : 0 < e) :
    smearEnergy a b c e draw =
      normalSample e ((a / Real.sqrt e + b + c / e) * e) draw
    ∧ smearEnergySimple a b e draw =
      normalSample e ((a / Real.sqrt e + b) * e) draw
    ∧ smearEnergy a b c e draw - e = (a / Real.sqrt e + b + c / e) * e * draw :=
  ⟨rfl, rfl, by unfold smearEnergy normalSample eRes; ring⟩

/-- C3 witness: the smearing identities at energy 1 with unit coefficients. -/
theorem smear_energy_sigma_witness :
    (0 : ℝ) < 1
    ∧ smearEnergy 1 1 1 1 1 =
        normalSample 1 ((1 / Real.sqrt 1 + 1 + 1 / 1) * 1) 1 :=
  ⟨by norm_num, (smear_energy_sigma 1 1 1 1 1 (by norm_num)).1⟩

/-- SimHit input record: channel identifier, deposited energy, hit time. -/
structure SimHitR where
  cellID : ℕ
  edep : ℝ
  time : ℝ

/-- Modelled from the spec: one smear call consumes the shared pseudo-random
stream exactly twice — the energy draw first, then the time draw — and
returns the smeared (energy, time) pair together with the rest of the
stream; an exhausted stream yields none. -/
noncomputable def smearHit (a b c tres : ℝ) (h : SimHitR) (stream : List ℝ) :
    Option ((ℝ × ℝ) × List ℝ) :=
  match stream with
  | dE :: dT :: rest =>
      some ((smearEnergy a b c h.edep dE, normalSample h.time tres dT), rest)
  | _ => none

/-- Modelled from the spec: smear every hit in input order, threading the
random stream through the calls sequentially. -/
noncomputable def smearAll (a b c tres : ℝ) :
    List SimHitR → List ℝ → List (ℕ × ℝ × ℝ) × List ℝ
  | [], s => ([], s)
  | h :: hs, s =>
      match smearHit a b c tres h s with
      | none => ([], s)
      | some ((e, t), rest) =>
          let p := smearAll a b c tres hs rest
          ((h.cellID, e, t) :: p.1, p.2)

/-- Analog hit used by the aggregation stage: channel, amplitude, time. -/
structure Hit (α : Type) where
  ch : ℕ
  amp : α
  time : α

/-- Modelled from the spec: a hit contributes only when its smeared time lies
in the window [tMin, tMax]. -/
def inWindow {α : Type} [LinearOrderedField α] (tmin tmax : α) (h : Hit α) :
    Bool :=
  decide (tmin ≤ h.time) && decide (h.time ≤ tmax)

/-- Modelled from the spec: the channels that received any in-window
contribution, in first-appearance order, each listed once. -/
def channelsOf {α : Type} [LinearOrderedField α] (tmin tmax : α)
    (hits : List (Hit α)) : List ℕ :=
  ((hits.filter (inWindow tmin tmax)).map Hit.ch).dedup

/-- Modelled from the spec: the aggregated analog signal of a channel is the
linear sum of the amplitudes of its in-window hits (no averaging). -/
def signalOf {α : Type} [LinearOrderedField α] (tmin tmax : α)
    (hits : List (Hit α)) (c : ℕ) : α :=
  ((hits.filter (fun h => inWindow tmin tmax h && decide (h.ch = c))).map
    Hit.amp).sum

/-- Modelled from the spec: the effective arrival time of a channel is taken
from its first in-window contribution. -/
def effTimeOf {α : Type} [LinearOrderedField α] (tmin tmax : α)
    (hits : List (Hit α)) (c : ℕ) : α :=
  (((hits.filter (fun h => inWindow tmin tmax h && decide (h.ch = c))).map
    Hit.time).headD 0)

/-- Modelled from the spec: one aggregated (channel, signal) pair per channel
that received any contribution. -/
def aggregate {α : Type} [LinearOrderedField α] (tmin tmax : α)
    (hits : List (Hit α)) : List (ℕ × α) :=
  (channelsOf tmin tmax hits).map (fun c => (c, signalOf tmin tmax hits c))

/-- Modelled from the spec: the Digitizer emits one RawHit per aggregated
channel, carrying the channel id and the ADC code of its signal. -/
def rawHitsOf {α : Type} [LinearOrderedField α] [FloorRing α]
    (tmin tmax ped dy : α) (hits : List (Hit α)) : List (ℕ × ℤ) :=
  (aggregate tmin tmax hits).map (fun p => (p.1, digitizeADC p.2 ped dy))

/-- Modelled from the spec: the full per-event transformation — smear every
hit threading the random stream, aggregate in-window contributions per
channel, and emit one (channel, ADC code, TDC code) record per channel. -/
noncomputable def executeModel (a b c tres ped dy tmin tmax : ℝ) (hits : List SimHitR)
    (stream : List ℝ) : List (ℕ × ℤ × ℤ) :=
  let sm : List (Hit ℝ) :=
    (smearAll a b c tres hits stream).1.map (fun x => ⟨x.1, x.2.1, x.2.2⟩)
  (channelsOf tmin tmax sm).map (fun ch =>
    (ch, digitizeADC (signalOf tmin tmax sm ch) ped dy,
      digitizeTDC (effTimeOf tmin tmax sm ch)))

/-- C4: two runs of execute with an identical random seed and identical input
ordering produce bit-identical outputs, and each smear call consumes the
shared stream exactly twice, energy draw first, then time draw. -/
theorem execute_deterministic_and_stream_order :
    (∀ (a b c tres ped dy tmin tmax : ℝ) (hits1 hits2 : List SimHitR)
      (s1 s2 : List ℝ), hits1 = hits2 → s1 = s2 →
      executeModel a b c tres ped dy tmin tmax hits1 s1 =
        executeModel a b c tres ped dy tmin tmax hits2 s2)
    ∧ (∀ (a b c tres : ℝ) (h : SimHitR) (dE dT : ℝ) (rest : List ℝ),
      smearHit a b c tres h (dE :: dT :: rest) =
        some ((smearEnergy a b c h.edep dE, normalSample h.time tres dT),
          rest)) :=
  ⟨fun _ _ _ _ _ _ _ _ _ _ _ _ h1 h2 => by rw [h1, h2],
   fun _ _ _ _ _ _ _ _ => rfl⟩

/-- C4 witness: determinism at a concrete input. -/
theorem execute_deterministic_witness :
    executeModel 0 0 0 0 0 1 0 1 [⟨0, 1, 1⟩] [0, 0] =
      executeModel 0 0 0 0 0 1 0 1 [⟨0, 1, 1⟩] [0, 0] :=
  execute_deterministic_and_stream_order.1 0 0 0 0 0 1 0 1
    [⟨0, 1, 1⟩] [⟨0, 1, 1⟩] [0, 0] [0, 0] rfl rfl

/-- Modelled from the spec: BarrelTOFNeighborFinder is not under the provided
sources.  The topology is a ring of nChannels channels: each valid channel is
adjacent to its predecessor and successor modulo nChannels, and a channel id
outside the valid range has an empty neighbor set. -/
def neighbors (nChannels c : ℕ) : List ℕ :=
  if c < nChannels then
    [(c + nChannels - 1) % nChannels, (c + 1) % nChannels]
  else []

/-- C5: with the 64-channel ring the code constructs, adjacency is symmetric
for every pair of valid channel ids, and channel 0 and channel 63 are mutual
neighbors (ring wrap-around). -/
theorem neighbors_symm_and_ring :
    (∀ a b : Fin 64, a.val ∈ neighbors 64 b.val ↔ b.val ∈ neighbors 64 a.val)
    ∧ 63 ∈ neighbors 64 0 ∧ 0 ∈ neighbors 64 63 := by decide

/-- C6 counterexample: two matching in-window hits of amplitude 1/10 each
(pedestal 0, dynamic range 256) give a combined ADC code equal to — not
strictly greater than — the code either hit produces alone, refuting the
strictly-greater clause of the claim. -/
theorem merged_adc_not_strictly_greater :
    ¬ (digitizeADC (signalOf (1/10 : ℚ) 100
          [⟨0, 1/10, 1⟩, ⟨0, 1/10, 1⟩] 0) 0 256 >
        digitizeADC (signalOf (1/10 : ℚ) 100 [⟨0, 1/10, 1⟩] 0) 0 256) := by
  have hs2 : signalOf (1/10 : ℚ) 100 [⟨0, 1/10, 1⟩, ⟨0, 1/10, 1⟩] 0
      = 2/10 := by
    norm_num [signalOf, inWindow, List.filter]
  have hs1 : signalOf (1/10 : ℚ) 100 [⟨0, 1/10, 1⟩] 0 = 1/10 := by
    norm_num [signalOf, inWindow, List.filter]
  rw [hs2, hs1]
  unfold digitizeADC clampCode
  rw [adc_range_eq]
  norm_num

theorem digitizeADC_mono {amp1 amp2 ped dy : ℚ} (hdy : 0 < dy)
    (h : amp1 ≤ amp2) : digitizeADC amp1 ped dy ≤ digitizeADC amp2 ped dy := by
  unfold digitizeADC
  refine clampCode_mono _ _ _ (Int.floor_le_floor ?_)
  have h256 : (0 : ℚ) ≤ (adc_range : ℚ) := by rw [adc_range_eq]; norm_num
  have hmul : amp1 * (adc_range : ℚ) ≤ amp2 * (adc_range : ℚ) :=
    mul_le_mul_of_nonneg_right h h256
  have hdiv : amp1 * (adc_range : ℚ) / dy ≤ amp2 * (adc_range : ℚ) / dy :=
    by gcongr
  linarith

/-- C6 (amended): two SimHits whose sum-field values match and whose times lie
in the window are merged into exactly one RawHit whose ADC code is the
quantization of the linear sum of their amplitudes (no averaging); for
positive contributions the combined code is at least — though not always
strictly greater than — the code either hit would produce alone. -/
theorem merged_hits_one_rawhit (c : ℕ) (a1 a2 t1 t2 ped dy tmin tmax : ℚ)
    (ht1l : tmin ≤ t1) (ht1r : t1 ≤ tmax)
    (ht2l : tmin ≤ t2) (ht2r : t2 ≤ tmax)
    (ha1 : 0 < a1) (ha2 : 0 < a2) (hdy : 0 < dy) :
    rawHitsOf tmin tmax ped dy [⟨c, a1, t1⟩, ⟨c, a2, t2⟩] =
        [(c, digitizeADC (a1 + a2) ped dy)]
    ∧ digitizeADC a1 ped dy ≤ digitizeADC (a1 + a2) ped dy
    ∧ digitizeADC a2 ped dy ≤ digitizeADC (a1 + a2) ped dy := by
  refine ⟨?_, digitizeADC_mono hdy (by linarith), digitizeADC_mono hdy (by linarith)⟩
  have hw1 : inWindow tmin tmax ⟨c, a1, t1⟩ = true := by
    simp [inWindow]; exact ⟨ht1l, ht1r⟩
  have hw2 : inWindow tmin tmax ⟨c, a2, t2⟩ = true := by
    simp [inWindow]; exact ⟨ht2l, ht2r⟩
  simp [rawHitsOf, aggregate, channelsOf, signalOf, List.filter, hw1, hw2,
    List.dedup_cons_of_mem]

/-- C6 witness for the amended claim: two unit hits in channel 0 merge into
one RawHit carrying the ADC code of their summed amplitude. -/
theorem merged_hits_one_rawhit_witness :
    rawHitsOf (0 : ℚ) 100 0 2 [⟨0, 1, 1⟩, ⟨0, 1, 1⟩] =
        [(0, digitizeADC ((1 : ℚ) + 1) 0 2)]
    ∧ digitizeADC (1 : ℚ) 0 2 ≤ digitizeADC ((1 : ℚ) + 1) 0 2
    ∧ digitizeADC (1 : ℚ) 0 2 ≤ digitizeADC ((1 : ℚ) + 1) 0 2 :=
  merged_hits_one_rawhit 0 1 1 1 1 0 2 0 100 (by norm_num) (by norm_num)
    (by norm_num) (by norm_num) (by norm_num) (by norm_num) (by norm_num)

/-- TMath::Landau of the external ROOT library, parameterized by the
standardized Landau density p: it evaluates p at (x - mu)/sigma, divides by
sigma when the norm flag is set, and returns 0 when sigma ≤ 0. -/
noncomputable def TMathLandau (p : ℝ → ℝ) (x mu sigma : ℝ) (norm : Bool) : ℝ :=
  if sigma ≤ 0 then 0
  else if norm then p ((x - mu) / sigma) / sigma
  else p ((x - mu) / sigma)

/-- The lambda body of BTOFHitDigi::fLandau, BTOFHitDigi.h lines 43-50: the
fixed constant C = -113.766 times the normalized Landau at (x; mean, std). -/
noncomputable def fLandau (p : ℝ → ℝ) (x mean std : ℝ) : ℝ :=
  (-113.766) * TMathLandau p x mean std true

/-- C7: the pulse-shape function is pure and deterministic (identical
parameters yield identical output), equals the fixed constant -113.766 times
the normalized Landau density, and is nonpositive for every t whenever the
underlying Landau density is nonnegative. -/
theorem fLandau_deterministic_and_nonpos :
    (∀ (p : ℝ → ℝ) (x mean std : ℝ),
      fLandau p x mean std = (-113.766) * TMathLandau p x mean std true)
    ∧ (∀ (p : ℝ → ℝ) (x mean std : ℝ), (∀ y, 0 ≤ p y) →
      fLandau p x mean std ≤ 0)
    ∧ (∀ (p : ℝ → ℝ) (x1 x2 m1 m2 s1 s2 : ℝ),
      x1 = x2 → m1 = m2 → s1 = s2 →
        fLandau p x1 m1 s1 = fLandau p x2 m2 s2) := by
  refine ⟨fun p x mean std => rfl, fun p x mean std hp => ?_,
    fun p x1 x2 m1 m2 s1 s2 h1 h2 h3 => by rw [h1, h2, h3]⟩
  unfold fLandau TMathLandau
  rcases le_or_lt std 0 with hs | hs
  · rw [if_pos hs]; norm_num
  · rw [if_neg (not_le.mpr hs), if_pos rfl]
    have hnum : 0 ≤ p ((x - mean) / std) / std :=
      div_nonneg (hp _) (le_of_lt hs)
    nlinarith

/-- C7 witness: the nonpositivity clause at the zero density and unit
width. -/
theorem fLandau_nonpos_witness :
    fLandau (fun _ => 0) 0 0 1 ≤ 0 :=
  fLandau_deterministic_and_nonpos.2.1 (fun _ => 0) 0 0 1 (fun _ => le_refl 0)

/-- Configuration parameters checked at initialization. -/
structure DigiConfig where
  adcBits : ℤ
  tdcBits : ℤ
  tMin : ℚ
  tMax : ℚ
  dyRangeADC : ℚ

/-- Modelled from the spec: a configuration is valid when both bit widths are
positive, the time window is monotonic and the dynamic ADC range is
positive. -/
def validConfig (c : DigiConfig) : Bool :=
  decide (0 < c.adcBits) && decide (0 < c.tdcBits) &&
    decide (c.tMin < c.tMax) && decide (0 < c.dyRangeADC)

/-- Modelled from the spec: the body of BTOFHitDigi::init is not under the
provided sources.  Initialization detects an invalid configuration and fails
fatally with a ConfigurationError. -/
def initDigi (c : DigiConfig) : Except String DigiConfig :=
  if validConfig c then Except.ok c else Except.error "ConfigurationError"

/-- Modelled from the spec: the engine runs execute only after a successful
initialization; a fatal initialization error propagates and no execute call
proceeds. -/
def runEngine (c : DigiConfig) (hits : List (Hit ℚ)) :
    Except String (List (ℕ × ℤ)) :=
  match initDigi c with
  | Except.error e => Except.error e
  | Except.ok c2 => Except.ok (rawHitsOf c2.tMin c2.tMax 0 c2.dyRangeADC hits)

/-- C8: a configuration with a non-positive bit width, a non-monotonic time
window or a non-positive dynamic ADC range makes initialization fail fatally,
and no execute call ever proceeds under it. -/
theorem invalid_config_refuses_to_run (c : DigiConfig) (hits : List (Hit ℚ))
    (h : c.adcBits ≤ 0 ∨ c.tdcBits ≤ 0 ∨ c.tMax ≤ c.tMin ∨ c.dyRangeADC ≤ 0) :
    initDigi c = Except.error "ConfigurationError"
    ∧ runEngine c hits = Except.error "ConfigurationError" := by
  have hv : validConfig c = false := by
    unfold validConfig
    rcases h with h | h | h | h <;> simp [not_lt.mpr h]
  unfold runEngine initDigi
  rw [hv]
  exact ⟨rfl, rfl⟩

/-- C8 witness: a zero ADC bit width is rejected and the engine refuses to
run. -/
theorem invalid_config_refuses_to_run_witness :
    initDigi ⟨0, 10, 1/10, 100, 1⟩ = Except.error "ConfigurationError"
    ∧ runEngine ⟨0, 10, 1/10, 100, 1⟩ [] = Except.error "ConfigurationError" :=
  invalid_config_refuses_to_run ⟨0, 10, 1/10, 100, 1⟩ []
    (Or.inl (by norm_num))

/-- State of a BTOFHitDigi instance: the constructor-fixed constants together
with the unitless counterparts that init fills in. -/
structure BTOFHitDigiState where
  neighborChannels : ℕ
  neighborSubBins : ℕ
  neighborBarLength : ℚ
  neighborGranularity : ℕ
  dyRangeADC : ℚ
  stepT : ℚ
  tRes : ℚ
  tMin : ℚ
  tMax : ℚ
  timePeriod : ℤ
  nBins : ℤ
  adcBits : ℕ
  tdcBits : ℕ

/-- The default constructor BTOFHitDigi(), BTOFHitDigi.h lines 41-50 with the
in-class initializers of lines 64-72: the neighbor finder is built with
(64, 4, 3.2, 4) and the quantization constants are fixed. -/
def BTOFHitDigiConstruct : BTOFHitDigiState :=
  { neighborChannels := 64, neighborSubBins := 4, neighborBarLength := 16/5,
    neighborGranularity := 4, dyRangeADC := 0, stepT := 0, tRes := 0,
    tMin := 1/10, tMax := 100, timePeriod := 25, nBins := 10000,
    adcBits := 8, tdcBits := 10 }

/-- Modelled from the spec: the body of BTOFHitDigi::init is not under the
provided sources; init resolves only the unitless counterparts (dyRangeADC,
stepTDC, tRes) from the configuration and geometry — the const members of
the class cannot be modified by it. -/
def BTOFHitDigiInit (st : BTOFHitDigiState) (cfgDy cfgStep cfgRes : ℚ) :
    BTOFHitDigiState :=
  { st with dyRangeADC := cfgDy, stepT := cfgStep, tRes := cfgRes }

/-- C9: for every configuration handed to init, the quantization and topology
parameters of the engine stay at their compile-time values: adc_bit = 8,
tdc_bit = 10, tMin = 0.1, tMax = 100, time_period = 25, and the neighbor
finder parameters (64, 4, 3.2, 4). -/
theorem constants_fixed_independent_of_config (cfgDy cfgStep cfgRes : ℚ) :
    (BTOFHitDigiInit BTOFHitDigiConstruct cfgDy cfgStep cfgRes).adcBits = 8
    ∧ (BTOFHitDigiInit BTOFHitDigiConstruct cfgDy cfgStep cfgRes).tdcBits = 10
    ∧ (BTOFHitDigiInit BTOFHitDigiConstruct cfgDy cfgStep cfgRes).tMin = 1/10
    ∧ (BTOFHitDigiInit BTOFHitDigiConstruct cfgDy cfgStep cfgRes).tMax = 100
    ∧ (BTOFHitDigiInit BTOFHitDigiConstruct cfgDy cfgStep cfgRes).timePeriod = 25
    ∧ ((BTOFHitDigiInit BTOFHitDigiConstruct cfgDy cfgStep cfgRes).neighborChannels,
        (BTOFHitDigiInit BTOFHitDigiConstruct cfgDy cfgStep cfgRes).neighborSubBins,
        (BTOFHitDigiInit BTOFHitDigiConstruct cfgDy cfgStep cfgRes).neighborBarLength,
        (BTOFHitDigiInit BTOFHitDigiConstruct cfgDy cfgStep cfgRes).neighborGranularity)
      = (64, 4, 16/5, 4) :=
  ⟨rfl, rfl, rfl, rfl, rfl, rfl⟩

/-- Radiator numbering of the IrtGeo geometry service.  Modelled from the
spec: IrtGeo.h is not under the provided sources; it declares the radiator
enum whose first two enumerators are kAerogel and kGas. -/
def kAerogel : ℤ := 0

/-- Second radiator enumerator; see kAerogel. -/
def kGas : ℤ := 1

/-- IrtGeo::RadiatorName, IrtGeo.cc lines 41-48. -/
def RadiatorName (num : ℤ) : String :=
  if num = kAerogel then "Aerogel"
  else if num = kGas then "Gas"
  else "UNKNOWN_RADIATOR"

/-- IrtGeo::RadiatorNum, IrtGeo.cc lines 49-56. -/
def RadiatorNum (name : String) : ℤ :=
  if name = "Aerogel" then kAerogel
  else if name = "Gas" then kGas
  else -1

/-- C10: RadiatorNum is a left inverse of RadiatorName on the radiator
enumerators kAerogel and kGas; any other number names UNKNOWN_RADIATOR, and
any other name maps to -1. -/
theorem radiator_roundtrip :
    RadiatorNum (RadiatorName kAerogel) = kAerogel
    ∧ RadiatorNum (RadiatorName kGas) = kGas
    ∧ (∀ num : ℤ, num ≠ kAerogel → num ≠ kGas →
        RadiatorName num = "UNKNOWN_RADIATOR")
    ∧ (∀ name : String, name ≠ "Aerogel" → name ≠ "Gas" →
        RadiatorNum name = -1) := by
  refine ⟨by decide, by decide, fun num h1 h2 => ?_, fun name h1 h2 => ?_⟩
  · unfold RadiatorName
    rw [if_neg h1, if_neg h2]
  · unfold RadiatorNum
    rw [if_neg h1, if_neg h2]

/-- C10 witness: an unknown radiator number and an unknown radiator name. -/
theorem radiator_roundtrip_witness :
    RadiatorName 5 = "UNKNOWN_RADIATOR" ∧ RadiatorNum "Quartz" = -1 :=
  ⟨radiator_roundtrip.2.2.1 5 (by decide) (by decide),
   radiator_roundtrip.2.2.2 "Quartz" (by decide) (by decide)⟩

end EICrecon
